import Mathlib

/-!
Verification development for the pipeline-service exporter's collector logic.

The Go sources are shallowly embedded as follows:
* timestamps are integers (milliseconds since the epoch); `time.Time.Sub(..).Milliseconds()`
  becomes integer subtraction, `After` becomes strict `<` on the integers, and the Go zero
  time value is the integer `0`;
* Go string maps (labels) are association lists with first-match lookup, an absent key
  reading as the empty string exactly as Go's two-valued map read does;
* `*metav1.Time` fields (start/completion timestamps) are `Option Int`; dereferences of
  pointers the surrounding code has already proven non-nil are modelled with `Option.getD 0`
  and the relevant theorems carry the corresponding `isSome` hypotheses;
* a Kubernetes client fetch is a function from object name to a `Fetch` outcome
  (found, not-found error, or any other error);
* metric sinks (histograms and per-namespace gauges) are explicit state threaded through
  the functions: a histogram observation is returned as data, the gauge is an association
  list from namespace to its current value.
-/

/-- Outcome of a client `Get` call: success, a not-found error, or any other
(transient) error.  Mirrors the `err`/`errors.IsNotFound(err)` discrimination
in the Go sources. -/
inductive Fetch (α : Type) where
  | ok (v : α)
  | notFound
  | transient
deriving DecidableEq

/-- Status of a knative `apis.Condition`: True, False, or Unknown. -/
inductive ConditionStatus where
  | condTrue
  | condFalse
  | unknown
deriving DecidableEq

/-- The `Succeeded` condition of a run: its status and its reason string. -/
structure Condition where
  status : ConditionStatus
  reason : String
deriving DecidableEq

/-- First-match lookup in an association-list map, `none` when the key is absent. -/
def lookupStr : List (String × String) → String → Option String
  | [], _ => none
  | (k, v) :: rest, key => if k = key then some v else lookupStr rest key

/-- Go's one-valued map read `m[k]`: the empty string when the key is absent. -/
def mapGetD (m : List (String × String)) (k : String) : String :=
  (lookupStr m k).getD ""

/-- Go's two-valued map read `_, ok := m[k]`: whether the key is present. -/
def mapHasKey (m : List (String × String)) (k : String) : Bool :=
  (lookupStr m k).isSome

/-- Go's map assignment `m[k] = v`: replace the first binding of `k`, or append one. -/
def mapInsert : List (String × String) → String → String → List (String × String)
  | [], k, v => [(k, v)]
  | (k0, v0) :: rest, k, v =>
      if k0 = k then (k, v) :: rest else (k0, v0) :: mapInsert rest k v

/-- A `ChildStatusReference` in a PipelineRun status: child kind and name. -/
structure ChildStatusReference where
  kind : String
  name : String
deriving DecidableEq

/-- The fields of a Tekton `TaskRun` used by the collector. -/
structure TaskRun where
  name : String
  labels : List (String × String)
  creationTime : Int
  completionTime : Option Int
  succeededCondition : Option Condition
deriving DecidableEq

/-- The zero value `&v1.TaskRun{}` that a failed `Get` leaves untouched. -/
def emptyTaskRun : TaskRun :=
  { name := "", labels := [], creationTime := 0, completionTime := none,
    succeededCondition := none }

/-- A `PipelineRef` param (name plus string value). -/
structure Param where
  name : String
  value : String
deriving DecidableEq

/-- A `PipelineRef` in a PipelineRun spec. -/
structure PipelineRef where
  name : String
  params : List Param
deriving DecidableEq

/-- The fields of a Tekton `PipelineRun` used by the collector. -/
structure PipelineRun where
  name : String
  generateName : String
  labels : List (String × String)
  pipelineRef : Option PipelineRef
  creationTime : Int
  startTime : Option Int
  completionTime : Option Int
  childReferences : List ChildStatusReference
  succeededCondition : Option Condition
deriving DecidableEq

/-- Constant `DEFAULT_THRESHOLD` (5 minutes in milliseconds). -/
def DEFAULT_THRESHOLD : Int := 300000

/-- Constant `SUCCEEDED` (the source spells it "succeded"). -/
def SUCCEEDED : String := "succeded"

/-- Constant `FAILED`. -/
def FAILED : String := "failed"

/-- Constant `THROTTLED_LABEL`. -/
def THROTTLED_LABEL : String := "pipelineservice.appstudio.io/throttled"

/-- Tekton label key `pipeline.TaskLabelKey`. -/
def TaskLabelKey : String := "tekton.dev/task"

/-- Tekton label key `pipeline.PipelineTaskLabelKey`. -/
def PipelineTaskLabelKey : String := "tekton.dev/pipelineTask"

/-- Tekton label key `pipeline.ClusterTaskLabelKey`. -/
def ClusterTaskLabelKey : String := "tekton.dev/clusterTask"

/-- Tekton label key `pipeline.TaskRunLabelKey`. -/
def TaskRunLabelKey : String := "tekton.dev/taskRun"

/-- Reason `pod.ReasonExceededResourceQuota`. -/
def ReasonExceededResourceQuota : String := "ExceededResourceQuota"

/-- Reason `pod.ReasonExceededNodeResources`. -/
def ReasonExceededNodeResources : String := "ExceededNodeResources"

/-- Helper for `pipelineRunPipelineRef`: the loop over `ref.Params` returning the
value of the first param whose trimmed name is "name". -/
def findNameParam : List Param → Option String
  | [] => none
  | p :: rest => if p.name.trim = "name" then some p.value else findNameParam rest

/-- Embeds `pipelineRunPipelineRef` from the source: the identity used for a
pipeline run in gap entries. -/
def pipelineRunPipelineRef (pr : PipelineRun) : String :=
  match pr.pipelineRef with
  | some ref =>
      if ref.name.length = 0 then
        match findNameParam ref.params with
        | some v => v
        | none => ref.name
      else ref.name
  | none =>
      if pr.generateName.length > 0 then pr.generateName else pr.name

/-- Embeds `taskRef` from the source: the identity used for a task run in gap
entries, read from its labels in priority order. -/
def taskRef (labels : List (String × String)) : String :=
  let task := mapGetD labels TaskLabelKey
  let pipelineTask := mapGetD labels PipelineTaskLabelKey
  let clusterTask := mapGetD labels ClusterTaskLabelKey
  let taskRun := mapGetD labels TaskRunLabelKey
  if task.length > 0 then task
  else if pipelineTask.length > 0 then pipelineTask
  else if clusterTask.length > 0 then clusterTask
  else if taskRun.length > 0 then taskRun
  else ""

/-- Embeds `calculateScheduledDuration`: started minus created in milliseconds,
zero when either time is the zero value. -/
def calculateScheduledDuration (created started : Int) : Int :=
  if created = 0 ∨ started = 0 then 0 else started - created

/-- Embeds `skipPipelineRun`: skip overhead accounting when the run has no child
references, no completion timestamp, or carries the throttled label. -/
def skipPipelineRun (pr : PipelineRun) : Bool :=
  if pr.childReferences.length < 1 then true
  else if pr.completionTime.isNone then true
  else if mapHasKey pr.labels THROTTLED_LABEL then true
  else false

/-- Embeds `isTaskRunThrottled`: the succeeded condition exists, is Unknown, and
its reason is exceeded-resource-quota or exceeded-node-resources. -/
def isTaskRunThrottled (tr : TaskRun) : Bool :=
  match tr.succeededCondition with
  | some c =>
      if c.status = ConditionStatus.unknown then
        (c.reason == ReasonExceededResourceQuota) || (c.reason == ReasonExceededNodeResources)
      else false
  | none => false

/-- Result of `isPipelineRunThrottled`, mirroring its Go `(bool, string, error)`
triple: either a surfaced fetch error, or a verdict with the culprit name. -/
inductive ThrottleCheck where
  | fetchError
  | result (throttled : Bool) (trName : String)
deriving DecidableEq

/-- The loop body of `isPipelineRunThrottled` over the child references.  A
not-found fetch leaves the zero TaskRun in place (which is never throttled),
any other error is surfaced, and the scan stops at the first throttled child. -/
def throttleScan (client : String → Fetch TaskRun) : List ChildStatusReference → ThrottleCheck
  | [] => ThrottleCheck.result false ""
  | ref :: rest =>
      if ref.kind ≠ "TaskRun" then throttleScan client rest
      else
        match client ref.name with
        | Fetch.transient => ThrottleCheck.fetchError
        | Fetch.notFound =>
            if isTaskRunThrottled emptyTaskRun then ThrottleCheck.result true emptyTaskRun.name
            else throttleScan client rest
        | Fetch.ok kid =>
            if isTaskRunThrottled kid then ThrottleCheck.result true kid.name
            else throttleScan client rest

/-- Embeds `isPipelineRunThrottled`: scan the run's child references. -/
def isPipelineRunThrottled (client : String → Fetch TaskRun) (pr : PipelineRun) : ThrottleCheck :=
  throttleScan client pr.childReferences

/-- Embeds `isPipelineRunGoing`: the run has at least one TaskRun child reference. -/
def isPipelineRunGoing (pr : PipelineRun) : Bool :=
  pr.childReferences.any (fun r => r.kind == "TaskRun")

/-- Observable outcome of `tagPipelineRunsWithTaskRunsGettingThrottled`: the
fetch error surfaced to the caller, a return without any patch call, or a patch
call carrying the labels written on the deep copy. -/
inductive TagOutcome where
  | fetchFailed
  | noPatch
  | patched (newLabels : List (String × String))
deriving DecidableEq

/-- Embeds `tagPipelineRunsWithTaskRunsGettingThrottled`: patch the throttled
label onto the run only when it is throttled and not already labelled. -/
def tagPipelineRunsWithTaskRunsGettingThrottled
    (client : String → Fetch TaskRun) (pr : PipelineRun) : TagOutcome :=
  match isPipelineRunThrottled client pr with
  | ThrottleCheck.fetchError => TagOutcome.fetchFailed
  | ThrottleCheck.result throttled trName =>
      if throttled && !(mapHasKey pr.labels THROTTLED_LABEL) then
        TagOutcome.patched (mapInsert pr.labels THROTTLED_LABEL trName)
      else TagOutcome.noPatch

/-- Embeds `filter` from the source (the overhead noise filter), with the
threshold (the `FILTER_THRESHOLD` environment override, default
`DEFAULT_THRESHOLD`) passed explicitly.  Returns `true` when the observation
must be suppressed. -/
def filter (threshold numerator denominator : Int) : Bool :=
  decide (0 < numerator) && decide (denominator < threshold)

/-- The loop body of `sortTaskRunsForGapCalculations` before the two sorts:
collect the fetched TaskRun children in reference order together with the
completed ones; `none` models the early `return nil, nil, true` taken on any
fetch error (not-found included). -/
def collectTaskRuns (client : String → Fetch TaskRun) :
    List ChildStatusReference → Option (List TaskRun × List TaskRun)
  | [] => some ([], [])
  | ref :: rest =>
      if ref.kind ≠ "TaskRun" then collectTaskRuns client rest
      else
        match client ref.name with
        | Fetch.ok kid =>
            match collectTaskRuns client rest with
            | some (creates, completes) =>
                some (kid :: creates,
                      if kid.completionTime.isSome then kid :: completes else completes)
            | none => none
        | _ => none

/-- Embeds `sortTaskRunsForGapCalculations`: the children sorted ascending by
creation time, the completed children sorted descending by completion time, and
the abort flag raised on any fetch error.  `sort.SliceStable` is modelled by the
stable `List.mergeSort`. -/
def sortTaskRunsForGapCalculations (client : String → Fetch TaskRun) (pr : PipelineRun) :
    List TaskRun × List TaskRun × Bool :=
  match collectTaskRuns client pr.childReferences with
  | none => ([], [], true)
  | some (creates, completes) =>
      (creates.mergeSort (fun a b => decide (a.creationTime ≤ b.creationTime)),
       completes.mergeSort (fun a b => decide (b.completionTime.getD 0 ≤ a.completionTime.getD 0)),
       false)

/-- A derived gap entry, as in the source's `GapEntry` struct (`gap` is the
integer number of milliseconds). -/
structure GapEntry where
  status : String
  pipeline : String
  completed : String
  upcoming : String
  gap : Int
deriving DecidableEq

/-- The completion time an entry of the completion-sorted list is read with:
the source dereferences `Status.CompletionTime` (non-nil by construction in
`sortTaskRunsForGapCalculations`); theorems that rely on the value carry the
corresponding `isSome` hypothesis. -/
def completionMs (tr : TaskRun) : Int :=
  tr.completionTime.getD 0

/-- One iteration of the loop in `calculateGaps`, producing the gap entry for
the task run at `index` of the creation-sorted list. -/
def gapEntryAt (pr : PipelineRun) (prRef status : String)
    (sorted revSorted : List TaskRun) (index : Nat) (tr : TaskRun) : GapEntry :=
  if index = 0 then
    { status := status, pipeline := prRef, completed := prRef,
      upcoming := taskRef tr.labels, gap := tr.creationTime - pr.creationTime }
  else
    let firstKid := sorted.headD emptyTaskRun
    let parallelWithFirst : Bool :=
      match firstKid.completionTime with
      | some fc => decide (tr.creationTime < fc)
      | none => false
    if parallelWithFirst then
      { status := status, pipeline := prRef, completed := prRef,
        upcoming := taskRef tr.labels, gap := tr.creationTime - pr.creationTime }
    else
      let dflt : String × Int :=
        match revSorted.getLast? with
        | some lastTr => (taskRef lastTr.labels, completionMs lastTr)
        | none => (prRef, pr.creationTime)
      let chosen : String × Int :=
        match revSorted.find?
            (fun tr2 => (!(tr2.name == tr.name)) && decide (completionMs tr2 ≤ tr.creationTime)) with
        | some tr2 => (taskRef tr2.labels, completionMs tr2)
        | none => dflt
      { status := status, pipeline := prRef, completed := chosen.1,
        upcoming := taskRef tr.labels, gap := tr.creationTime - chosen.2 }

/-- The indexed loop of `calculateGaps` over the creation-sorted list. -/
def calcGapsLoop (pr : PipelineRun) (prRef status : String)
    (sorted revSorted : List TaskRun) : Nat → List TaskRun → List GapEntry
  | _, [] => []
  | index, tr :: rest =>
      gapEntryAt pr prRef status sorted revSorted index tr ::
        calcGapsLoop pr prRef status sorted revSorted (index + 1) rest

/-- Embeds `calculateGaps`.  The source re-reads the run's succeeded condition
on every iteration and `continue`s when it is nil or Unknown; since the run is
not mutated by the loop, that per-iteration test is loop-invariant and is
hoisted here: a nil or Unknown condition yields no entries at all. -/
def calculateGaps (pr : PipelineRun) (sorted revSorted : List TaskRun) : List GapEntry :=
  match pr.succeededCondition with
  | none => []
  | some cond =>
      if cond.status = ConditionStatus.unknown then []
      else
        let status := if cond.status = ConditionStatus.condFalse then FAILED else SUCCEEDED
        calcGapsLoop pr (pipelineRunPipelineRef pr) status sorted revSorted 0 sorted

/-- Embeds `accumulateGaps`: the gap total, the entries, and whether gaps were
actually computed (false when the run is skipped or the fetches aborted). -/
def accumulateGaps (client : String → Fetch TaskRun) (pr : PipelineRun) :
    Int × List GapEntry × Bool :=
  if skipPipelineRun pr then (0, [], false)
  else
    match sortTaskRunsForGapCalculations client pr with
    | (_, _, true) => (0, [], false)
    | (sorted, revSorted, false) =>
        let gapEntries := calculateGaps pr sorted revSorted
        (gapEntries.foldl (fun acc e => acc + e.gap) 0, gapEntries, true)

/-- Observable outcome of one `ReconcileOverhead` pass (after the pipeline run
itself has been fetched): a returned non-nil error (the controller runtime will
redeliver), an explicit requeue, a normal return carrying the execution and
scheduling observations that were recorded (each as numerator/denominator, or
`none` when filtered or never reached), or the nil-StartTime dereference the Go
code would panic on. -/
inductive RecOutcome where
  | retryError
  | requeueNow
  | done (executionObs schedulingObs : Option (Int × Int))
  | nilStartDeref
deriving DecidableEq

/-- Embeds the body of `ReconcileOverhead` from the successful fetch of the
pipeline run onward.  `threshold` is the noise-filter threshold passed through
to `filter`.  The nil check that the Go code does not perform on
`pr.Status.StartTime` is surfaced as the distinguished `nilStartDeref` outcome;
the dereference of `pr.Status.CompletionTime` on the same line is guarded by
`skipPipelineRun` and is modelled with `Option.getD 0`. -/
def reconcileOverheadOn (threshold : Int) (client : String → Fetch TaskRun)
    (pr : PipelineRun) : RecOutcome :=
  let notDonePath : RecOutcome :=
    if !(isPipelineRunGoing pr) then RecOutcome.requeueNow
    else
      match tagPipelineRunsWithTaskRunsGettingThrottled client pr with
      | TagOutcome.fetchFailed => RecOutcome.retryError
      | _ => RecOutcome.done none none
  match pr.succeededCondition with
  | none => notDonePath
  | some cond =>
      if cond.status = ConditionStatus.unknown then notDonePath
      else
        match accumulateGaps client pr with
        | (gapTotal, _, foundGaps) =>
            if foundGaps then
              match pr.startTime with
              | none => RecOutcome.nilStartDeref
              | some st =>
                  let totalDuration := pr.completionTime.getD 0 - st
                  let executionObs :=
                    if filter threshold gapTotal totalDuration then none
                    else some (gapTotal, totalDuration)
                  let scheduleDuration := calculateScheduledDuration pr.creationTime st
                  let schedulingObs :=
                    if filter threshold scheduleDuration totalDuration then none
                    else some (scheduleDuration, totalDuration)
                  RecOutcome.done executionObs schedulingObs
            else RecOutcome.done none none

/-- Per-namespace gauge state of a `PollCollector` (`IncCollector`/`ZeroCollector`
act on the gauge labelled by namespace); an absent namespace reads as 0. -/
def gaugeGet : List (String × Int) → String → Int
  | [], _ => 0
  | (k, v) :: rest, ns => if k = ns then v else gaugeGet rest ns

/-- Write a namespace's gauge value (replace the first binding or append one). -/
def gaugeSet : List (String × Int) → String → Int → List (String × Int)
  | [], ns, v => [(ns, v)]
  | (k0, v0) :: rest, ns, v =>
      if k0 = ns then (ns, v) :: rest else (k0, v0) :: gaugeSet rest ns v

/-- `PollCollector.IncCollector`: bump the namespace's gauge by one. -/
def incCollector (g : List (String × Int)) (ns : String) : List (String × Int) :=
  gaugeSet g ns (gaugeGet g ns + 1)

/-- `PollCollector.ZeroCollector`: set the namespace's gauge to zero. -/
def zeroCollector (g : List (String × Int)) (ns : String) : List (String × Int) :=
  gaugeSet g ns 0

/-- Lookup in a namespace-keyed scan map (namespace to set of object names). -/
def nsLookup : List (String × List String) → String → Option (List String)
  | [], _ => none
  | (k, v) :: rest, ns => if k = ns then some v else nsLookup rest ns

/-- Write a namespace's entry in a scan map. -/
def nsSet : List (String × List String) → String → List String → List (String × List String)
  | [], ns, v => [(ns, v)]
  | (k0, v0) :: rest, ns, v =>
      if k0 = ns then (ns, v) :: rest else (k0, v0) :: nsSet rest ns v

/-- Go's set insertion into a string-keyed set: add the name if absent. -/
def insertName (l : List String) (n : String) : List String :=
  if n ∈ l then l else n :: l

/-- The `DeadlockTracker` state.  The Go field `deadlocked` is a closure the
polling driver points at the object under scrutiny; it is modelled as a
predicate on the object name and namespace. -/
structure DeadlockTracker where
  gauge : List (String × Int)
  deadlocked : String → String → Bool
  filter : List String
  flaggedNamespaces : List String
  lastScan : List (String × List String)
  currentScan : List (String × List String)

/-- The `objHitLastTime` read in `PerformDeadlockDetection`: whether the object
was in the previous scan's set for its namespace (an absent namespace reads as
the empty set). -/
def lastScanHas (d : DeadlockTracker) (ns name : String) : Prop :=
  name ∈ (nsLookup d.lastScan ns).getD []

instance (d : DeadlockTracker) (ns name : String) : Decidable (lastScanHas d ns name) :=
  inferInstanceAs (Decidable (name ∈ (nsLookup d.lastScan ns).getD []))

/-- Embeds `DeadlockTracker.PerformDeadlockDetection` for one polled object:
skip filtered namespaces; materialize the namespace in the current scan; on a
failing liveness check record the object, and when it also failed the previous
scan bump the namespace gauge and flag the namespace; finally, zero the gauge
of a namespace that is not flagged. -/
def performDeadlockDetection (d : DeadlockTracker) (name ns : String) : DeadlockTracker :=
  if ns ∈ d.filter then d
  else
    let objMap := (nsLookup d.currentScan ns).getD []
    let d1 : DeadlockTracker :=
      if d.deadlocked name ns then
        let objMap2 := insertName objMap name
        if lastScanHas d ns name then
          { d with currentScan := nsSet d.currentScan ns objMap2,
                   gauge := incCollector d.gauge ns,
                   flaggedNamespaces := insertName d.flaggedNamespaces ns }
        else { d with currentScan := nsSet d.currentScan ns objMap2 }
      else { d with currentScan := nsSet d.currentScan ns objMap }
    if ns ∈ d1.flaggedNamespaces then d1
    else { d1 with gauge := zeroCollector d1.gauge ns }

/-- Modelled from the spec: the body of `innerReset` is not among the analyzed
sources (only its call site in `buildLastScanCopy` is).  Per the spec's
per-cycle gauge semantics it resets the gauge of each namespace of the
just-finished scan, so that the next cycle's increments start from zero. -/
def innerReset (g : List (String × Int)) (keys : List String) : List (String × Int) :=
  keys.foldl zeroCollector g

/-- Embeds `buildLastScanCopy`: reset the gauges for the namespaces of the scan
and return the deep copy of the scan that becomes the next cycle's `lastScan`
(the deep copy of the Go map is literal under value semantics). -/
def buildLastScanCopy (g : List (String × Int)) (m : List (String × List String)) :
    List (String × Int) × List (String × List String) :=
  (innerReset g (m.map Prod.fst), m)

/-- Embeds `zeroOutPriorHitNamespacesThatAreNowEmpty`: zero the gauge of every
namespace of the previous scan that is absent from the current scan. -/
def zeroOutPriorHitNamespacesThatAreNowEmpty (g : List (String × Int))
    (lastScan currentScan : List (String × List String)) : List (String × Int) :=
  lastScan.foldl
    (fun acc p => if (nsLookup currentScan p.1).isSome then acc else zeroCollector acc p.1) g

/-- Modelled from the spec: the polling-cycle driver is not among the analyzed
sources (only the helpers it calls are).  Per the spec each cycle starts with a
fresh current scan and a clean flagged-namespace marker ("already flagged from
a prior poll in this cycle"), runs the per-object detection, and ends by
zeroing the gauges of namespaces that dropped out of the scan and swapping the
previous-scan set for a deep copy of the current one (`buildLastScanCopy`,
`zeroOutPriorHitNamespacesThatAreNowEmpty`). -/
def runPollingCycle (d : DeadlockTracker) (objs : List (String × String)) : DeadlockTracker :=
  let start := { d with currentScan := [], flaggedNamespaces := [] }
  let polled := objs.foldl (fun acc p => performDeadlockDetection acc p.1 p.2) start
  let g1 := zeroOutPriorHitNamespacesThatAreNowEmpty polled.gauge d.lastScan polled.currentScan
  match buildLastScanCopy g1 polled.currentScan with
  | (g2, newLast) => { polled with gauge := g2, lastScan := newLast }

/-- Reading back a written gauge value. -/
theorem gaugeGet_gaugeSet_self (g : List (String × Int)) (ns : String) (v : Int) :
    gaugeGet (gaugeSet g ns v) ns = v := by
  induction g with
  | nil => simp [gaugeGet, gaugeSet]
  | cons hd tl ih =>
    cases hd with
    | mk k0 v0 =>
      by_cases h : k0 = ns
      · simp [gaugeGet, gaugeSet, h]
      · simp [gaugeGet, gaugeSet, h, ih]

/-- Writing one namespace's gauge leaves the others unchanged. -/
theorem gaugeGet_gaugeSet_other (g : List (String × Int)) (ns ns2 : String) (v : Int)
    (h : ns2 ≠ ns) : gaugeGet (gaugeSet g ns v) ns2 = gaugeGet g ns2 := by
  induction g with
  | nil => simp [gaugeGet, gaugeSet, Ne.symm h]
  | cons hd tl ih =>
    cases hd with
    | mk k0 v0 =>
      by_cases hk : k0 = ns
      · subst hk
        simp [gaugeGet, gaugeSet, Ne.symm h]
      · simp [gaugeGet, gaugeSet, hk, ih]

/-- Incrementing a namespace's gauge reads back as plus one. -/
theorem gaugeGet_incCollector_self (g : List (String × Int)) (ns : String) :
    gaugeGet (incCollector g ns) ns = gaugeGet g ns + 1 := by
  simp [incCollector, gaugeGet_gaugeSet_self]

/-- Zeroing a namespace's gauge reads back as zero. -/
theorem gaugeGet_zeroCollector_self (g : List (String × Int)) (ns : String) :
    gaugeGet (zeroCollector g ns) ns = 0 := by
  simp [zeroCollector, gaugeGet_gaugeSet_self]

/-- Zeroing one namespace's gauge leaves the others unchanged. -/
theorem gaugeGet_zeroCollector_other (g : List (String × Int)) (ns ns2 : String)
    (h : ns2 ≠ ns) : gaugeGet (zeroCollector g ns) ns2 = gaugeGet g ns2 := by
  simp [zeroCollector, gaugeGet_gaugeSet_other g ns ns2 0 h]

/-- Reading back a written scan entry. -/
theorem nsLookup_nsSet_self (m : List (String × List String)) (ns : String) (v : List String) :
    nsLookup (nsSet m ns v) ns = some v := by
  induction m with
  | nil => simp [nsLookup, nsSet]
  | cons hd tl ih =>
    cases hd with
    | mk k0 v0 =>
      by_cases h : k0 = ns
      · simp [nsLookup, nsSet, h]
      · simp [nsLookup, nsSet, h, ih]

/-- Writing one scan entry leaves the others unchanged. -/
theorem nsLookup_nsSet_other (m : List (String × List String)) (ns ns2 : String)
    (v : List String) (h : ns2 ≠ ns) : nsLookup (nsSet m ns v) ns2 = nsLookup m ns2 := by
  induction m with
  | nil => simp [nsLookup, nsSet, Ne.symm h]
  | cons hd tl ih =>
    cases hd with
    | mk k0 v0 =>
      by_cases hk : k0 = ns
      · subst hk
        simp [nsLookup, nsSet, Ne.symm h]
      · simp [nsLookup, nsSet, hk, ih]

/-- Membership after a set insertion. -/
theorem mem_insertName_self (l : List String) (n : String) : n ∈ insertName l n := by
  by_cases h : n ∈ l
  · simp [insertName, h]
  · simp [insertName, h]

/-- A member of a set insertion was already present or is the inserted name. -/
theorem mem_insertName_elim (l : List String) (n x : String) (h : x ∈ insertName l n) :
    x ∈ l ∨ x = n := by
  by_cases hn : n ∈ l
  · simp [insertName, hn] at h
    exact Or.inl h
  · simp [insertName, hn] at h
    rcases h with h | h
    · exact Or.inr h
    · exact Or.inl h

/-- The end-of-cycle zeroing pass never revives a gauge that already reads zero. -/
theorem zeroOut_keeps_zero (lastScan currentScan : List (String × List String))
    (g : List (String × Int)) (ns : String) (h : gaugeGet g ns = 0) :
    gaugeGet (zeroOutPriorHitNamespacesThatAreNowEmpty g lastScan currentScan) ns = 0 := by
  induction lastScan generalizing g with
  | nil => simpa [zeroOutPriorHitNamespacesThatAreNowEmpty] using h
  | cons hd tl ih =>
    simp only [zeroOutPriorHitNamespacesThatAreNowEmpty, List.foldl_cons] at *
    apply ih
    by_cases hs : (nsLookup currentScan hd.1).isSome
    · simpa [hs] using h
    · by_cases hns : ns = hd.1
      · subst hns
        simp [hs, gaugeGet_zeroCollector_self]
      · simp [hs, gaugeGet_zeroCollector_other _ _ _ hns, h]

/-- The end-of-cycle zeroing pass zeroes every namespace of the previous scan
that is absent from the current scan. -/
theorem zeroOut_zeroes (lastScan currentScan : List (String × List String))
    (g : List (String × Int)) (ns : String)
    (hmem : (nsLookup lastScan ns).isSome)
    (hgone : nsLookup currentScan ns = none) :
    gaugeGet (zeroOutPriorHitNamespacesThatAreNowEmpty g lastScan currentScan) ns = 0 := by
  induction lastScan generalizing g with
  | nil => simp [nsLookup] at hmem
  | cons hd tl ih =>
    cases hd with
    | mk k0 v0 =>
      simp only [zeroOutPriorHitNamespacesThatAreNowEmpty, List.foldl_cons] at *
      by_cases hk : k0 = ns
      · subst hk
        have hz : gaugeGet (zeroCollector g k0) k0 = 0 := gaugeGet_zeroCollector_self g k0
        simp only [hgone, Option.isSome_none, Bool.false_eq_true, if_false]
        exact zeroOut_keeps_zero tl currentScan _ k0 hz
      · simp only [nsLookup, hk, if_false] at hmem
        exact ih _ hmem

/-- The end-of-cycle zeroing pass leaves namespaces outside the previous scan
untouched. -/
theorem zeroOut_preserves (lastScan currentScan : List (String × List String))
    (g : List (String × Int)) (ns : String)
    (hnot : nsLookup lastScan ns = none) :
    gaugeGet (zeroOutPriorHitNamespacesThatAreNowEmpty g lastScan currentScan) ns =
      gaugeGet g ns := by
  induction lastScan generalizing g with
  | nil => simp [zeroOutPriorHitNamespacesThatAreNowEmpty]
  | cons hd tl ih =>
    cases hd with
    | mk k0 v0 =>
      by_cases hk : k0 = ns
      · simp [nsLookup, hk] at hnot
      · simp only [nsLookup, hk, if_false] at hnot
        simp only [zeroOutPriorHitNamespacesThatAreNowEmpty, List.foldl_cons] at *
        rw [ih _ hnot]
        by_cases hs : (nsLookup currentScan k0).isSome
        · simp [hs]
        · simp [hs, gaugeGet_zeroCollector_other _ _ _ (fun hh => hk hh.symm)]

/-- The spec-modelled `innerReset` leaves namespaces outside the given key set
untouched. -/
theorem innerReset_preserves (keys : List String) (g : List (String × Int)) (ns : String)
    (h : ns ∉ keys) :
    gaugeGet (innerReset g keys) ns = gaugeGet g ns := by
  induction keys generalizing g with
  | nil => simp [innerReset]
  | cons hd tl ih =>
    simp only [List.mem_cons, not_or] at h
    simp only [innerReset, List.foldl_cons] at *
    rw [ih _ h.2]
    exact gaugeGet_zeroCollector_other _ _ _ h.1

/-- Indexing into the `calculateGaps` loop: the entry at position `j` is the
one produced for the task run at position `j` of the iterated list. -/
theorem calcGapsLoop_get (pr : PipelineRun) (prRef status : String)
    (sorted revSorted l : List TaskRun) (i j : Nat) :
    (calcGapsLoop pr prRef status sorted revSorted i l).get? j =
      (l.get? j).map (fun tr => gapEntryAt pr prRef status sorted revSorted (i + j) tr) := by
  induction l generalizing i j with
  | nil => simp [calcGapsLoop]
  | cons hd tl ih =>
    cases j with
    | zero => simp [calcGapsLoop]
    | succ j =>
        simp only [calcGapsLoop, List.get?_cons_succ, ih (i + 1) j]
        have harith : i + 1 + j = i + (j + 1) := by omega
        rw [harith]

/-- In a list sorted descending by a key, `find?` returns an element whose key
is maximal among all elements satisfying the predicate. -/
theorem find_first_max {α : Type} (key : α → Int) (p : α → Bool) (l : List α)
    (hsorted : l.Pairwise (fun a b => key b ≤ key a)) (x : α)
    (hfind : l.find? p = some x) :
    ∀ y ∈ l, p y = true → key y ≤ key x := by
  induction l with
  | nil => simp at hfind
  | cons hd tl ih =>
    rcases List.pairwise_cons.mp hsorted with ⟨hhd, htl⟩
    by_cases hp : p hd = true
    · rw [List.find?_cons_of_pos _ hp] at hfind
      have hx : hd = x := by simpa using hfind
      subst hx
      intro y hy _
      rcases List.mem_cons.mp hy with rfl | hmem
      · exact le_refl _
      · exact hhd y hmem
    · rw [List.find?_cons_of_neg _ (by simpa using hp)] at hfind
      intro y hy hpy
      rcases List.mem_cons.mp hy with rfl | hmem
      · exact absurd hpy hp
      · exact ih htl hfind y hmem hpy

/-- A task run created at 0 that never completed. -/
def exTrA : TaskRun :=
  { name := "tra", labels := [(TaskLabelKey, "task-a")], creationTime := 0,
    completionTime := none,
    succeededCondition := some { status := ConditionStatus.condTrue, reason := "" } }

/-- A task run created at 10 that completed at 30. -/
def exTrB : TaskRun :=
  { name := "trb", labels := [(TaskLabelKey, "task-b")], creationTime := 10,
    completionTime := some 30,
    succeededCondition := some { status := ConditionStatus.condTrue, reason := "" } }

/-- A completed, unlabelled pipeline run owning `exTrA` and `exTrB`. -/
def exPR1 : PipelineRun :=
  { name := "pr1", generateName := "", labels := [],
    pipelineRef := some { name := "pipe", params := [] },
    creationTime := 0, startTime := some 5, completionTime := some 100,
    childReferences := [{ kind := "TaskRun", name := "tra" },
                        { kind := "TaskRun", name := "trb" }],
    succeededCondition := some { status := ConditionStatus.condTrue, reason := "" } }

/-- A client that knows `exTrA` and `exTrB` and reports anything else missing. -/
def exClientOK : String → Fetch TaskRun := fun n =>
  if n = "tra" then Fetch.ok exTrA
  else if n = "trb" then Fetch.ok exTrB
  else Fetch.notFound

/-- A client whose every fetch fails with a transient (non-not-found) error. -/
def exClientTransient : String → Fetch TaskRun := fun _ => Fetch.transient

/-- Inserting a key makes it present. -/
theorem mapHasKey_mapInsert_self (m : List (String × String)) (k v : String) :
    mapHasKey (mapInsert m k v) k = true := by
  induction m with
  | nil => simp [mapInsert, mapHasKey, lookupStr]
  | cons hd tl ih =>
    cases hd with
    | mk k0 v0 =>
      by_cases h : k0 = k
      · simp [mapInsert, mapHasKey, lookupStr, h]
      · simpa [mapInsert, mapHasKey, lookupStr, h] using ih

/-- C4: the overhead noise filter suppresses recording exactly when the gap
total is strictly positive and the total duration is strictly below the
configured threshold (default 300,000 ms); with a zero gap total it never
suppresses, whatever the total duration. -/
theorem noise_filter_characterization :
    ∀ threshold numerator denominator : Int,
      (filter threshold numerator denominator = true ↔
         0 < numerator ∧ denominator < threshold) ∧
      filter threshold 0 denominator = false ∧
      DEFAULT_THRESHOLD = 300000 := by
  intro t n d
  refine ⟨?_, ?_, rfl⟩
  · simp [filter]
  · simp [filter]

/-- C9: a task run is classified throttled exactly when its succeeded condition
is Unknown with reason exceeded-resource-quota or exceeded-node-resources; the
scan over a run's child references treats a not-found fetch as non-fatal,
surfaces any other fetch error, and returns at the first throttled child. -/
theorem throttle_detector_classification :
    (∀ tr : TaskRun, isTaskRunThrottled tr = true ↔
       ∃ c, tr.succeededCondition = some c ∧ c.status = ConditionStatus.unknown ∧
         (c.reason = ReasonExceededResourceQuota ∨ c.reason = ReasonExceededNodeResources)) ∧
    (∀ (client : String → Fetch TaskRun) (ref : ChildStatusReference)
        (rest : List ChildStatusReference),
       ref.kind = "TaskRun" → client ref.name = Fetch.notFound →
       throttleScan client (ref :: rest) = throttleScan client rest) ∧
    (∀ (client : String → Fetch TaskRun) (ref : ChildStatusReference)
        (rest : List ChildStatusReference),
       ref.kind = "TaskRun" → client ref.name = Fetch.transient →
       throttleScan client (ref :: rest) = ThrottleCheck.fetchError) ∧
    (∀ (client : String → Fetch TaskRun) (ref : ChildStatusReference)
        (rest : List ChildStatusReference) (kid : TaskRun),
       ref.kind = "TaskRun" → client ref.name = Fetch.ok kid →
       isTaskRunThrottled kid = true →
       throttleScan client (ref :: rest) = ThrottleCheck.result true kid.name) := by
  refine ⟨?_, ?_, ?_, ?_⟩
  · intro tr
    cases hsc : tr.succeededCondition with
    | none => simp [isTaskRunThrottled, hsc]
    | some c =>
        by_cases hu : c.status = ConditionStatus.unknown
        · simp [isTaskRunThrottled, hsc, hu]
        · simp [isTaskRunThrottled, hsc, hu]
  · intro client ref rest hkind hcl
    simp [throttleScan, hkind, hcl, isTaskRunThrottled, emptyTaskRun]
  · intro client ref rest hkind hcl
    simp [throttleScan, hkind, hcl]
  · intro client ref rest kid hkind hcl hthr
    simp [throttleScan, hkind, hcl, hthr]

/-- Witness for C9: a transient fetch error on a TaskRun child reference is
surfaced by the scan. -/
theorem throttle_detector_classification_witness :
    throttleScan exClientTransient [{ kind := "TaskRun", name := "x" }] =
      ThrottleCheck.fetchError :=
  throttle_detector_classification.2.2.1 exClientTransient
    { kind := "TaskRun", name := "x" } [] rfl rfl

/-- C7: tagging is idempotent: on a run already carrying the throttle label no
patch call is made, and a patch only ever happens on a run without the label,
producing labels that carry it (absent to present, at most once). -/
theorem throttle_tagging_idempotent :
    (∀ (client : String → Fetch TaskRun) (pr : PipelineRun),
       mapHasKey pr.labels THROTTLED_LABEL = true →
       ∀ labs, tagPipelineRunsWithTaskRunsGettingThrottled client pr ≠ TagOutcome.patched labs) ∧
    (∀ (client : String → Fetch TaskRun) (pr : PipelineRun) (labs : List (String × String)),
       tagPipelineRunsWithTaskRunsGettingThrottled client pr = TagOutcome.patched labs →
       mapHasKey pr.labels THROTTLED_LABEL = false ∧
       mapHasKey labs THROTTLED_LABEL = true) := by
  constructor
  · intro client pr hkey labs
    cases h : isPipelineRunThrottled client pr with
    | fetchError => simp [tagPipelineRunsWithTaskRunsGettingThrottled, h]
    | result throttled trName =>
        simp [tagPipelineRunsWithTaskRunsGettingThrottled, h, hkey]
  · intro client pr labs hpatch
    cases h : isPipelineRunThrottled client pr with
    | fetchError => simp [tagPipelineRunsWithTaskRunsGettingThrottled, h] at hpatch
    | result throttled trName =>
        simp only [tagPipelineRunsWithTaskRunsGettingThrottled, h] at hpatch
        cases hft : throttled with
        | false => simp [hft] at hpatch
        | true =>
            cases hkf : mapHasKey pr.labels THROTTLED_LABEL with
            | true => simp [hft, hkf] at hpatch
            | false =>
                simp [hft, hkf] at hpatch
                subst hpatch
                exact ⟨rfl, mapHasKey_mapInsert_self _ _ _⟩

/-- An already-labelled variant of `exPR1`. -/
def exPRLabeled : PipelineRun :=
  { exPR1 with labels := [(THROTTLED_LABEL, "trb")] }

/-- Witness for C7: invoking tagging on an already-labelled run makes no patch
call. -/
theorem throttle_tagging_idempotent_witness :
    tagPipelineRunsWithTaskRunsGettingThrottled exClientOK exPRLabeled ≠
      TagOutcome.patched [] :=
  throttle_tagging_idempotent.1 exClientOK exPRLabeled (by decide) []

/-- When the run's succeeded condition is present and not Unknown,
`calculateGaps` is the indexed loop with the corresponding status string. -/
theorem calculateGaps_eq (pr : PipelineRun) (sorted revSorted : List TaskRun)
    (cond : Condition) (hcond : pr.succeededCondition = some cond)
    (hne : cond.status ≠ ConditionStatus.unknown) :
    calculateGaps pr sorted revSorted =
      calcGapsLoop pr (pipelineRunPipelineRef pr)
        (if cond.status = ConditionStatus.condFalse then FAILED else SUCCEEDED)
        sorted revSorted 0 sorted := by
  unfold calculateGaps
  rw [hcond]
  simp [hne]

/-- C5: a later-created step whose creation precedes the earliest-created
step's completion is classified structurally parallel: its gap predecessor is
the run itself and its gap is its creation time minus the run's creation time,
never a gap computed against the first step. -/
theorem parallel_classification (pr : PipelineRun) (first tr : TaskRun)
    (rest revSorted : List TaskRun) (i : Nat) (cond : Condition) (fc : Int)
    (hcond : pr.succeededCondition = some cond)
    (hne : cond.status ≠ ConditionStatus.unknown)
    (hmin : ∀ u ∈ rest, first.creationTime ≤ u.creationTime)
    (htr : rest.get? i = some tr)
    (hfc : first.completionTime = some fc)
    (hafter : tr.creationTime < fc) :
    ∃ e, (calculateGaps pr (first :: rest) revSorted).get? (i + 1) = some e ∧
      e.completed = pipelineRunPipelineRef pr ∧
      e.gap = tr.creationTime - pr.creationTime := by
  rw [calculateGaps_eq pr (first :: rest) revSorted cond hcond hne,
      calcGapsLoop_get, List.get?_cons_succ, htr]
  refine ⟨_, rfl, ?_, ?_⟩
  · simp [gapEntryAt, hfc, hafter]
  · simp [gapEntryAt, hfc, hafter]

/-- Witness for C5: with the first step completing at 50 and a second step
created at 10, the second step's entry is computed against the run. -/
theorem parallel_classification_witness :
    ∃ e, (calculateGaps exPR1
            [{ exTrA with completionTime := some 50 }, exTrB]
            [{ exTrA with completionTime := some 50 }]).get? (0 + 1) = some e ∧
      e.completed = pipelineRunPipelineRef exPR1 ∧
      e.gap = exTrB.creationTime - exPR1.creationTime :=
  parallel_classification exPR1 { exTrA with completionTime := some 50 } exTrB
    [exTrB] [{ exTrA with completionTime := some 50 }] 0
    { status := ConditionStatus.condTrue, reason := "" } 50
    rfl (by decide) (by decide) rfl rfl (by decide)

/-- C6: a completed run with exactly one TaskRun child yields exactly one gap
entry, whose gap is the step's creation time minus the run's creation time;
the formula does not involve the run's outcome, so the value is the same for a
successful and a failed run. -/
theorem single_step_gap (client : String → Fetch TaskRun) (pr : PipelineRun)
    (tr : TaskRun) (n : String) (cond : Condition)
    (hrefs : pr.childReferences = [{ kind := "TaskRun", name := n }])
    (hclient : client n = Fetch.ok tr)
    (hcomp : pr.completionTime.isSome)
    (hlabel : mapHasKey pr.labels THROTTLED_LABEL = false)
    (hcond : pr.succeededCondition = some cond)
    (hne : cond.status ≠ ConditionStatus.unknown) :
    ∃ e, accumulateGaps client pr = (e.gap, [e], true) ∧
      e.gap = tr.creationTime - pr.creationTime := by
  have hskip : skipPipelineRun pr = false := by
    rcases Option.isSome_iff_exists.mp hcomp with ⟨ct, hct⟩
    simp [skipPipelineRun, hrefs, hct, hlabel]
  have hcollect : collectTaskRuns client pr.childReferences =
      some ([tr], if tr.completionTime.isSome then [tr] else []) := by
    rw [hrefs]
    simp [collectTaskRuns, hclient]
  have hsort : sortTaskRunsForGapCalculations client pr =
      ([tr], if tr.completionTime.isSome then [tr] else [], false) := by
    unfold sortTaskRunsForGapCalculations
    rw [hcollect]
    by_cases hc2 : tr.completionTime.isSome
    · simp [hc2]
    · simp [hc2]
  refine ⟨{ status := if cond.status = ConditionStatus.condFalse then FAILED else SUCCEEDED,
            pipeline := pipelineRunPipelineRef pr,
            completed := pipelineRunPipelineRef pr,
            upcoming := taskRef tr.labels,
            gap := tr.creationTime - pr.creationTime }, ?_, rfl⟩
  unfold accumulateGaps
  rw [hskip]
  simp only [Bool.false_eq_true, if_false]
  rw [hsort]
  by_cases hc2 : tr.completionTime.isSome
  · simp only [hc2, if_true]
    rw [calculateGaps_eq pr [tr] [tr] cond hcond hne]
    simp [calcGapsLoop, gapEntryAt]
  · simp only [hc2, Bool.false_eq_true, if_false]
    rw [calculateGaps_eq pr [tr] [] cond hcond hne]
    simp [calcGapsLoop, gapEntryAt]

/-- Witness for C6: a single-step run whose step was created at 10 and whose
run was created at 0 yields one entry with gap 10. -/
theorem single_step_gap_witness :
    ∃ e, accumulateGaps (fun m => if m = "trb" then Fetch.ok exTrB else Fetch.notFound)
           { exPR1 with childReferences := [{ kind := "TaskRun", name := "trb" }] } =
         (e.gap, [e], true) ∧
      e.gap = exTrB.creationTime -
        ({ exPR1 with childReferences := [{ kind := "TaskRun", name := "trb" }] } :
          PipelineRun).creationTime :=
  single_step_gap (fun m => if m = "trb" then Fetch.ok exTrB else Fetch.notFound)
    { exPR1 with childReferences := [{ kind := "TaskRun", name := "trb" }] }
    exTrB "trb" { status := ConditionStatus.condTrue, reason := "" }
    rfl rfl rfl rfl rfl (by decide)

/-- Counterexample for C1 as stated: in a run whose first step never completed
and whose second step (created at 10) is the only completed one (at 30), no
step other than the second itself completed no later than 10, so the claim
requires the reference point to fall back to the run's creation time 0 (gap 10,
predecessor the run "pipe"); the code instead falls back to the earliest
completion of the completion-descending list — the step itself — recording gap
-20 with the step itself as predecessor. -/
theorem gap_fallback_counterexample :
    (calculateGaps exPR1 [exTrA, exTrB] [exTrB]).get? 1 =
      some { status := SUCCEEDED, pipeline := "pipe", completed := "task-b",
             upcoming := "task-b", gap := -20 } ∧
    ¬ ((-20 : Int) = exTrB.creationTime - exPR1.creationTime) ∧
    ¬ (("task-b" : String) = pipelineRunPipelineRef exPR1) := by
  refine ⟨by decide, by decide, by decide⟩

/-- C1 (amended): for a step that is neither the earliest-created nor
classified parallel, the predecessor is the step that completed most recently
but no later than this step's creation time, scanning the completion-descending
ordering and skipping the step itself; when no such step exists the reference
point is the completion time of the earliest-completing step (the last entry of
the completion-descending ordering, possibly the step itself), and only when no
step completed at all does it fall back to the run's creation time; the gap is
the step's creation time minus that reference point. -/
theorem gap_predecessor_amended (pr : PipelineRun) (first tr : TaskRun)
    (rest revSorted : List TaskRun) (i : Nat) (cond : Condition)
    (hcond : pr.succeededCondition = some cond)
    (hne : cond.status ≠ ConditionStatus.unknown)
    (htr : rest.get? i = some tr)
    (hnp : ∀ fc, first.completionTime = some fc → fc ≤ tr.creationTime)
    (hcompl : ∀ u ∈ revSorted, u.completionTime.isSome)
    (hsorted : revSorted.Pairwise (fun a b => completionMs b ≤ completionMs a)) :
    ∃ e, (calculateGaps pr (first :: rest) revSorted).get? (i + 1) = some e ∧
      ((∃ tr2, tr2 ∈ revSorted ∧ tr2.name ≠ tr.name ∧
          completionMs tr2 ≤ tr.creationTime ∧
          e.completed = taskRef tr2.labels ∧
          e.gap = tr.creationTime - completionMs tr2 ∧
          (∀ tr3 ∈ revSorted, tr3.name ≠ tr.name → completionMs tr3 ≤ tr.creationTime →
            completionMs tr3 ≤ completionMs tr2)) ∨
       ((∀ tr2 ∈ revSorted, tr2.name = tr.name ∨ tr.creationTime < completionMs tr2) ∧
         ((revSorted = [] ∧ e.completed = pipelineRunPipelineRef pr ∧
             e.gap = tr.creationTime - pr.creationTime) ∨
          (∃ lastTr, revSorted.getLast? = some lastTr ∧
             e.completed = taskRef lastTr.labels ∧
             e.gap = tr.creationTime - completionMs lastTr)))) := by
  rw [calculateGaps_eq pr (first :: rest) revSorted cond hcond hne,
      calcGapsLoop_get, List.get?_cons_succ, htr]
  refine ⟨_, rfl, ?_⟩
  have hne0 : ¬ (0 + (i + 1) = 0) := by omega
  have hpar : (match (List.headD (first :: rest) emptyTaskRun).completionTime with
      | some fc => decide (tr.creationTime < fc)
      | none => false) = false := by
    simp only [List.headD_cons]
    cases hfc : first.completionTime with
    | none => rfl
    | some fc => simpa using not_lt.mpr (hnp fc hfc)
  simp only [gapEntryAt, hne0, if_false, hpar, Bool.false_eq_true]
  cases hfind : revSorted.find?
      (fun tr2 => (!(tr2.name == tr.name)) && decide (completionMs tr2 ≤ tr.creationTime)) with
  | some tr2 =>
      left
      have hp := List.find?_some hfind
      have hmem := List.mem_of_find?_eq_some hfind
      have hname : tr2.name ≠ tr.name := by
        intro hh
        simp [hh] at hp
      have hle : completionMs tr2 ≤ tr.creationTime := by
        simp only [Bool.and_eq_true, decide_eq_true_eq] at hp
        exact hp.2
      refine ⟨tr2, hmem, hname, hle, by simp, by simp, ?_⟩
      intro tr3 hmem3 hname3 hle3
      refine find_first_max completionMs _ revSorted hsorted tr2 hfind tr3 hmem3 ?_
      simp [hname3, hle3]
  | none =>
      right
      have hfail := List.find?_eq_none.mp hfind
      constructor
      · intro tr2 htr2
        have hnp2 := hfail tr2 htr2
        by_cases hname : tr2.name = tr.name
        · exact Or.inl hname
        · right
          by_cases hle : completionMs tr2 ≤ tr.creationTime
          · exact absurd (by simp [hname, hle]) hnp2
          · exact not_le.mp hle
      · cases hrev : revSorted with
        | nil =>
            subst hrev
            exact Or.inl ⟨rfl, rfl, rfl⟩
        | cons hd tl =>
            subst hrev
            right
            cases hgl : (hd :: tl).getLast? with
            | none => simp at hgl
            | some lastTr => exact ⟨lastTr, rfl, rfl, rfl⟩

/-- A task run created at 0 completing at 5. -/
def exTrA1 : TaskRun :=
  { name := "tra1", labels := [(TaskLabelKey, "task-a1")], creationTime := 0,
    completionTime := some 5,
    succeededCondition := some { status := ConditionStatus.condTrue, reason := "" } }

/-- A task run created at 20 completing at 40. -/
def exTrC : TaskRun :=
  { name := "trc", labels := [(TaskLabelKey, "task-c")], creationTime := 20,
    completionTime := some 40,
    succeededCondition := some { status := ConditionStatus.condTrue, reason := "" } }

/-- Witness for the amended C1: with the first step completing at 5 and the
second created at 20, the second step's predecessor is found by the scan. -/
theorem gap_predecessor_amended_witness :
    ∃ e, (calculateGaps exPR1 [exTrA1, exTrC] [exTrC, exTrA1]).get? (0 + 1) = some e ∧
      ((∃ tr2, tr2 ∈ [exTrC, exTrA1] ∧ tr2.name ≠ exTrC.name ∧
          completionMs tr2 ≤ exTrC.creationTime ∧
          e.completed = taskRef tr2.labels ∧
          e.gap = exTrC.creationTime - completionMs tr2 ∧
          (∀ tr3 ∈ [exTrC, exTrA1], tr3.name ≠ exTrC.name →
            completionMs tr3 ≤ exTrC.creationTime →
            completionMs tr3 ≤ completionMs tr2)) ∨
       ((∀ tr2 ∈ [exTrC, exTrA1], tr2.name = exTrC.name ∨
           exTrC.creationTime < completionMs tr2) ∧
         (([exTrC, exTrA1] = ([] : List TaskRun) ∧
             e.completed = pipelineRunPipelineRef exPR1 ∧
             e.gap = exTrC.creationTime - exPR1.creationTime) ∨
          (∃ lastTr, ([exTrC, exTrA1] : List TaskRun).getLast? = some lastTr ∧
             e.completed = taskRef lastTr.labels ∧
             e.gap = exTrC.creationTime - completionMs lastTr)))) :=
  gap_predecessor_amended exPR1 exTrA1 exTrC [exTrC] [exTrC, exTrA1] 0
    { status := ConditionStatus.condTrue, reason := "" }
    rfl (by decide) rfl
    (by
      intro fc hfc
      simp [exTrA1] at hfc
      simp [exTrC]
      omega)
    (by decide) (by decide)

/-- If some TaskRun-kind child reference fails to fetch (not-found or any other
error), the collection loop aborts. -/
theorem collectTaskRuns_fail (client : String → Fetch TaskRun)
    (refs : List ChildStatusReference) (ref : ChildStatusReference)
    (hmem : ref ∈ refs) (hkind : ref.kind = "TaskRun")
    (hcl : client ref.name = Fetch.transient ∨ client ref.name = Fetch.notFound) :
    collectTaskRuns client refs = none := by
  induction refs with
  | nil => simp at hmem
  | cons hd tl ih =>
    rcases List.mem_cons.mp hmem with rfl | hmem2
    · rcases hcl with hcl | hcl
      · simp [collectTaskRuns, hkind, hcl]
      · simp [collectTaskRuns, hkind, hcl]
    · by_cases hk : hd.kind ≠ "TaskRun"
      · simpa [collectTaskRuns, hk] using ih hmem2
      · cases hcl2 : client hd.name with
        | ok kid => simp [collectTaskRuns, hk, hcl2, ih hmem2]
        | notFound => simp [collectTaskRuns, hk, hcl2]
        | transient => simp [collectTaskRuns, hk, hcl2]

/-- Counterexample for C8 as stated: for the completed run `exPR1` whose step
fetches all fail with a transient (non-not-found) error, the reconcile pass
returns normally with no observation and no error — the failure is not
surfaced to the caller as retryable. -/
theorem transient_fetch_counterexample :
    reconcileOverheadOn DEFAULT_THRESHOLD exClientTransient exPR1 =
      RecOutcome.done none none ∧
    RecOutcome.done none none ≠ RecOutcome.retryError := by
  exact ⟨by decide, by decide⟩

/-- C8 (amended): when fetching a referenced step fails — transiently or with
not-found — the whole gap computation for the run is aborted, no error and no
requeue is signalled to the caller, and no metric is recorded for that run. -/
theorem fetch_failure_aborts (threshold : Int) (client : String → Fetch TaskRun)
    (pr : PipelineRun) (cond : Condition) (ref : ChildStatusReference)
    (hcond : pr.succeededCondition = some cond)
    (hne : cond.status ≠ ConditionStatus.unknown)
    (hmem : ref ∈ pr.childReferences) (hkind : ref.kind = "TaskRun")
    (hcl : client ref.name = Fetch.transient ∨ client ref.name = Fetch.notFound) :
    reconcileOverheadOn threshold client pr = RecOutcome.done none none := by
  have hacc : accumulateGaps client pr = (0, [], false) := by
    unfold accumulateGaps
    by_cases hskip : skipPipelineRun pr
    · simp [hskip]
    · simp only [hskip, Bool.false_eq_true, if_false]
      unfold sortTaskRunsForGapCalculations
      rw [collectTaskRuns_fail client pr.childReferences ref hmem hkind hcl]
  unfold reconcileOverheadOn
  rw [hcond]
  simp [hne, hacc]

/-- Witness for the amended C8. -/
theorem fetch_failure_aborts_witness :
    reconcileOverheadOn DEFAULT_THRESHOLD exClientTransient exPR1 =
      RecOutcome.done none none :=
  fetch_failure_aborts DEFAULT_THRESHOLD exClientTransient exPR1
    { status := ConditionStatus.condTrue, reason := "" }
    { kind := "TaskRun", name := "tra" }
    rfl (by decide) (by decide) rfl (Or.inl rfl)

/-- C10: the `skipPipelineRun` gate checks child references, completion time
and the throttle label but never the run's start time; the subsequent duration
computations dereference the start time unguarded, so the overhead computation
is total only under the additional precondition that a done run's start time
is non-nil. -/
theorem start_time_unchecked :
    (∀ (pr : PipelineRun) (s : Option Int),
       skipPipelineRun { pr with startTime := s } = skipPipelineRun pr) ∧
    (∀ pr : PipelineRun,
       skipPipelineRun pr = false ↔
         (pr.childReferences ≠ [] ∧ pr.completionTime ≠ none ∧
          mapHasKey pr.labels THROTTLED_LABEL = false)) ∧
    reconcileOverheadOn DEFAULT_THRESHOLD exClientOK { exPR1 with startTime := none } =
      RecOutcome.nilStartDeref ∧
    (∀ (threshold : Int) (client : String → Fetch TaskRun) (pr : PipelineRun)
       (cond : Condition),
       pr.succeededCondition = some cond → cond.status ≠ ConditionStatus.unknown →
       pr.startTime.isSome →
       reconcileOverheadOn threshold client pr ≠ RecOutcome.nilStartDeref) := by
  refine ⟨?_, ?_, ?_, ?_⟩
  · intro pr s
    rfl
  · intro pr
    unfold skipPipelineRun
    by_cases h1 : pr.childReferences.length < 1
    · have : pr.childReferences = [] := List.length_eq_zero.mp (by omega)
      simp [h1, this]
    · have hne : pr.childReferences ≠ [] := by
        intro hh
        simp [hh] at h1
      by_cases h2 : pr.completionTime.isNone
      · simp [h1, h2, hne, Option.isNone_iff_eq_none.mp h2]
      · have hc : pr.completionTime ≠ none := by
          intro hh
          simp [hh] at h2
        by_cases h3 : mapHasKey pr.labels THROTTLED_LABEL
        · simp [h1, h2, h3, hne, hc]
        · simp [h1, h2, h3, hne, hc]
  · decide
  · intro threshold client pr cond hcond hne hstart
    unfold reconcileOverheadOn
    rw [hcond]
    simp only [hne, if_false]
    cases hacc : accumulateGaps client pr with
    | mk gapTotal rest =>
        cases rest with
        | mk entries foundGaps =>
            cases foundGaps with
            | false => simp
            | true =>
                cases hst : pr.startTime with
                | none => rw [hst] at hstart; simp at hstart
                | some st => simp

/-- Witness for C10: on a run with a start time the reconcile pass never hits
the nil-start dereference. -/
theorem start_time_unchecked_witness :
    reconcileOverheadOn DEFAULT_THRESHOLD exClientOK exPR1 ≠ RecOutcome.nilStartDeref :=
  start_time_unchecked.2.2.2 DEFAULT_THRESHOLD exClientOK exPR1
    { status := ConditionStatus.condTrue, reason := "" } rfl (by decide) rfl

/-- Polling a filtered namespace mutates nothing. -/
theorem perform_filtered (d : DeadlockTracker) (name ns : String) (h : ns ∈ d.filter) :
    performDeadlockDetection d name ns = d := by
  simp [performDeadlockDetection, h]

/-- A namespace in the flagged set after one detection step was already flagged
or is the namespace of the polled object. -/
theorem perform_flag_elim (d : DeadlockTracker) (name ns x : String)
    (h : x ∈ (performDeadlockDetection d name ns).flaggedNamespaces) :
    x ∈ d.flaggedNamespaces ∨ x = ns := by
  by_cases hf : ns ∈ d.filter
  · rw [perform_filtered d name ns hf] at h
    exact Or.inl h
  · unfold performDeadlockDetection at h
    rw [if_neg hf] at h
    by_cases hdead : d.deadlocked name ns
    · by_cases hhit : lastScanHas d ns name
      · simp only [hdead, if_true, hhit] at h
        split at h
        · exact mem_insertName_elim _ _ _ h
        · exact mem_insertName_elim _ _ _ h
      · simp only [hdead, if_true, hhit, if_false] at h
        split at h
        · exact Or.inl h
        · exact Or.inl h
    · simp only [hdead, Bool.false_eq_true, if_false] at h
      split at h
      · exact Or.inl h
      · exact Or.inl h

/-- One detection step preserves the invariant that every flagged namespace is
present in the current scan. -/
theorem perform_flag_in_scan (d : DeadlockTracker) (name ns : String)
    (hinv : ∀ x ∈ d.flaggedNamespaces, (nsLookup d.currentScan x).isSome = true) :
    ∀ x ∈ (performDeadlockDetection d name ns).flaggedNamespaces,
      (nsLookup (performDeadlockDetection d name ns).currentScan x).isSome = true := by
  intro x hx
  by_cases hf : ns ∈ d.filter
  · rw [perform_filtered d name ns hf] at hx ⊢
    exact hinv x hx
  · have hxold : x ∈ d.flaggedNamespaces ∨ x = ns := perform_flag_elim d name ns x hx
    have hscan : (performDeadlockDetection d name ns).currentScan =
        nsSet d.currentScan ns
          (if d.deadlocked name ns then
            insertName ((nsLookup d.currentScan ns).getD []) name
           else (nsLookup d.currentScan ns).getD []) := by
      unfold performDeadlockDetection
      rw [if_neg hf]
      by_cases hdead : d.deadlocked name ns
      · by_cases hhit : lastScanHas d ns name
        · simp only [hdead, if_true, hhit]
          split
          · rfl
          · rfl
        · simp only [hdead, if_true, hhit, if_false]
          split
          · rfl
          · rfl
      · simp only [hdead, Bool.false_eq_true, if_false]
        split
        · rfl
        · rfl
    rw [hscan]
    rcases hxold with hxo | rfl
    · by_cases hxns : x = ns
      · subst hxns
        simp [nsLookup_nsSet_self]
      · rw [nsLookup_nsSet_other _ _ _ _ hxns]
        exact hinv x hxo
    · simp [nsLookup_nsSet_self]

/-- Over a whole polling pass, a namespace ends up flagged only if it was
already flagged at the start of the pass or one of its objects was polled. -/
theorem pollFold_flag_elim (objs : List (String × String)) (acc : DeadlockTracker)
    (x : String)
    (h : x ∈ (objs.foldl (fun a p => performDeadlockDetection a p.1 p.2) acc).flaggedNamespaces) :
    x ∈ acc.flaggedNamespaces ∨ x ∈ objs.map Prod.snd := by
  induction objs generalizing acc with
  | nil => exact Or.inl (by simpa using h)
  | cons hd tl ih =>
    rw [List.foldl_cons] at h
    rcases ih _ h with h1 | h2
    · rcases perform_flag_elim acc hd.1 hd.2 x h1 with h3 | h3
      · exact Or.inl h3
      · exact Or.inr (by simp [h3])
    · exact Or.inr (by simp [h2])

/-- Over a whole polling pass, every flagged namespace is present in the
current scan. -/
theorem pollFold_flag_in_scan (objs : List (String × String)) (acc : DeadlockTracker)
    (hinv : ∀ x ∈ acc.flaggedNamespaces, (nsLookup acc.currentScan x).isSome = true) :
    ∀ x ∈ (objs.foldl (fun a p => performDeadlockDetection a p.1 p.2) acc).flaggedNamespaces,
      (nsLookup ((objs.foldl (fun a p => performDeadlockDetection a p.1 p.2) acc).currentScan)
        x).isSome = true := by
  induction objs generalizing acc with
  | nil => simpa using hinv
  | cons hd tl ih =>
    rw [List.foldl_cons]
    exact ih _ (perform_flag_in_scan acc hd.1 hd.2 hinv)

/-- A scan map with no entry for a namespace does not list it as a key. -/
theorem not_mem_keys_of_nsLookup_none (m : List (String × List String)) (ns : String)
    (h : nsLookup m ns = none) : ns ∉ m.map Prod.fst := by
  induction m with
  | nil => simp
  | cons hd tl ih =>
    cases hd with
    | mk k0 v0 =>
      by_cases hk : k0 = ns
      · simp [nsLookup, hk] at h
      · simp only [nsLookup, hk, if_false] at h
        simp only [List.map_cons, List.mem_cons, not_or]
        exact ⟨fun hh => hk hh.symm, ih h⟩

/-- C2: an identity that fails the liveness predicate this pass but was not in
the previous scan leaves the flagged set unchanged and does not increment the
gauge (it is zeroed unless the namespace was already flagged by another
identity); an identity failing on two consecutive passes bumps the namespace
gauge by exactly one and marks the namespace flagged; and a cycle flags a
namespace only when one of its objects was actually polled in that cycle. -/
theorem deadlock_two_pass_flagging :
    (∀ (d : DeadlockTracker) (name ns : String),
       ns ∉ d.filter → d.deadlocked name ns = true → ¬ lastScanHas d ns name →
       ((performDeadlockDetection d name ns).flaggedNamespaces = d.flaggedNamespaces ∧
        gaugeGet (performDeadlockDetection d name ns).gauge ns =
          (if ns ∈ d.flaggedNamespaces then gaugeGet d.gauge ns else 0))) ∧
    (∀ (d : DeadlockTracker) (name ns : String),
       ns ∉ d.filter → d.deadlocked name ns = true → lastScanHas d ns name →
       (gaugeGet (performDeadlockDetection d name ns).gauge ns = gaugeGet d.gauge ns + 1 ∧
        ns ∈ (performDeadlockDetection d name ns).flaggedNamespaces)) ∧
    (∀ (d : DeadlockTracker) (objs : List (String × String)) (ns : String),
       ns ∈ (runPollingCycle d objs).flaggedNamespaces → ns ∈ objs.map Prod.snd) := by
  refine ⟨?_, ?_, ?_⟩
  · intro d name ns hf hdead hhit
    unfold performDeadlockDetection
    rw [if_neg hf]
    simp only [hdead, if_true, hhit, if_false]
    by_cases hfl : ns ∈ d.flaggedNamespaces
    · simp [hfl]
    · simp [hfl, gaugeGet_zeroCollector_self]
  · intro d name ns hf hdead hhit
    unfold performDeadlockDetection
    rw [if_neg hf]
    simp only [hdead, if_true, hhit]
    have hin := mem_insertName_self d.flaggedNamespaces ns
    simp [hin, gaugeGet_incCollector_self]
  · intro d objs ns h
    have h2 : ns ∈ (objs.foldl (fun a p => performDeadlockDetection a p.1 p.2)
        { d with currentScan := [], flaggedNamespaces := [] }).flaggedNamespaces := by
      simpa [runPollingCycle, buildLastScanCopy] using h
    rcases pollFold_flag_elim objs _ ns h2 with h3 | h3
    · simp at h3
    · exact h3

/-- A tracker whose previous scan already recorded object "o1" in "ns1", with a
liveness predicate that always reports failing. -/
def exTracker : DeadlockTracker :=
  { gauge := [], deadlocked := fun _ _ => true, filter := [],
    flaggedNamespaces := [], lastScan := [("ns1", ["o1"])], currentScan := [] }

/-- Witness for C2: polling "o1" a second consecutive failing time bumps the
namespace gauge by one and flags the namespace. -/
theorem deadlock_two_pass_flagging_witness :
    gaugeGet (performDeadlockDetection exTracker "o1" "ns1").gauge "ns1" =
      gaugeGet exTracker.gauge "ns1" + 1 ∧
    "ns1" ∈ (performDeadlockDetection exTracker "o1" "ns1").flaggedNamespaces :=
  deadlock_two_pass_flagging.2.1 exTracker "o1" "ns1" (by decide) rfl (by decide)

/-- C3: at the end of a polling cycle, a namespace that was in the previous
scan but is absent from the current scan has its gauge zeroed, is not flagged,
and is dropped from the tracked previous scan. -/
theorem namespace_drop_clears :
    ∀ (d : DeadlockTracker) (objs : List (String × String)) (ns : String),
      (nsLookup d.lastScan ns).isSome = true →
      nsLookup (runPollingCycle d objs).currentScan ns = none →
      (gaugeGet (runPollingCycle d objs).gauge ns = 0 ∧
       ns ∉ (runPollingCycle d objs).flaggedNamespaces ∧
       nsLookup (runPollingCycle d objs).lastScan ns = none) := by
  intro d objs ns hlast hcur
  have hcur2 : nsLookup (objs.foldl (fun a p => performDeadlockDetection a p.1 p.2)
      { d with currentScan := [], flaggedNamespaces := [] }).currentScan ns = none := by
    simpa [runPollingCycle, buildLastScanCopy] using hcur
  refine ⟨?_, ?_, ?_⟩
  · simp only [runPollingCycle, buildLastScanCopy]
    rw [innerReset_preserves _ _ _ (not_mem_keys_of_nsLookup_none _ _ hcur2)]
    exact zeroOut_zeroes d.lastScan _ _ ns hlast hcur2
  · intro hmem
    have hmem2 : ns ∈ (objs.foldl (fun a p => performDeadlockDetection a p.1 p.2)
        { d with currentScan := [], flaggedNamespaces := [] }).flaggedNamespaces := by
      simpa [runPollingCycle, buildLastScanCopy] using hmem
    have hsome := pollFold_flag_in_scan objs
      { d with currentScan := [], flaggedNamespaces := [] } (by simp) ns hmem2
    rw [hcur2] at hsome
    simp at hsome
  · simpa [runPollingCycle, buildLastScanCopy] using hcur2

/-- A tracker with a flagged, gauged namespace whose objects are about to
disappear from the scan. -/
def exTrackerGone : DeadlockTracker :=
  { gauge := [("ns1", 5)], deadlocked := fun _ _ => false, filter := [],
    flaggedNamespaces := ["ns1"], lastScan := [("ns1", ["o1"])], currentScan := [] }

/-- Witness for C3: a cycle polling nothing clears the stale namespace. -/
theorem namespace_drop_clears_witness :
    gaugeGet (runPollingCycle exTrackerGone []).gauge "ns1" = 0 ∧
    "ns1" ∉ (runPollingCycle exTrackerGone []).flaggedNamespaces ∧
    nsLookup (runPollingCycle exTrackerGone []).lastScan "ns1" = none :=
  namespace_drop_clears exTrackerGone [] "ns1" rfl rfl
